import Mathlib

/-!
Shallow embedding of the realtime room-coordination core (the `Room` engine
and its request handlers from `room.ts`, plus the pieces of `clientmanager.ts`
the claims rely on).  Machine numbers that carry playback clocks are modelled
as rationals; JavaScript `undefined`/`null` become `Option`; the mutable
`Room` object becomes a `RoomState` record threaded through the handlers, and
thrown exceptions become `Except` errors (every handler in the source throws
before mutating, so an error faithfully means "state unchanged").  Publishes
to the message bus and writes to the shared key/value store are collected as
a list of `Effect`s.
-/

/-- Roles, in ascending authority (the source uses a numeric enum; only the
relative order is observable in the embedded code). -/
inductive Role where
  | UnregisteredUser
  | RegisteredUser
  | TrustedUser
  | Moderator
  | Administrator
  | Owner
deriving DecidableEq, Repr

/-- Numeric value of a role, used for the order comparisons in `promoteUser`. -/
def Role.toNat : Role → Nat
  | .UnregisteredUser => 0
  | .RegisteredUser => 1
  | .TrustedUser => 2
  | .Moderator => 3
  | .Administrator => 4
  | .Owner => 5

/-- Player status reported by clients (`PlayerStatus` in the source types). -/
inductive PlayerStatus where
  | none
  | ready
  | buffering
  | error
deriving DecidableEq, Repr

/-- A registered user account (only the fields the room code reads). -/
structure User where
  id : Nat
  username : String
deriving DecidableEq, Repr

/-- A video.  The source distinguishes `VideoId` (service + id) from the full
`Video` (with metadata); both flow through the same duck-typed positions, so
they are merged here, with `length` standing for the metadata. -/
structure Video where
  service : String
  id : String
  length : Rat
deriving DecidableEq, Repr

/-- The `(service, id)` pair that identifies a video for dedup purposes. -/
def vkey (v : Video) : String × String := (v.service, v.id)

/-- The comparison `item.service === v.service && item.id === v.id` used by
`addToQueue` and `removeFromQueue`. -/
def matchVideo (a b : Video) : Bool := a.service == b.service && a.id == b.id

/-- Source `ClientInfo` supplied on join / update-user. -/
structure ClientInfo where
  id : String
  user_id : Option Nat := Option.none
  username : Option String := Option.none
  status : Option PlayerStatus := Option.none
deriving DecidableEq, Repr

/-- JavaScript truthiness of an optional number (`0` is falsy). -/
def truthyNat : Option Nat → Bool
  | some n => n != 0
  | Option.none => false

/-- JavaScript truthiness of an optional string (the empty string is falsy). -/
def truthyStr : Option String → Bool
  | some str => str ≠ ""
  | Option.none => false

/-- A participant as the room sees them (`RoomUser` in the source). -/
structure RoomUser where
  id : String
  user_id : Option Nat := Option.none
  unregisteredUsername : String := ""
  user : Option User := Option.none
  playerStatus : PlayerStatus := PlayerStatus.none
deriving DecidableEq, Repr

/-- Source `new RoomUser(id)`. -/
def mkRoomUser (id : String) : RoomUser := { id := id }

/-- Source `RoomUser.isLoggedIn`: `!!this.user_id`. -/
def RoomUser.isLoggedIn (u : RoomUser) : Bool := truthyNat u.user_id

/-- Source `RoomUser.username`: the account name while logged in with a cached user,
otherwise the unregistered name. -/
def RoomUser.username (u : RoomUser) : String :=
  if u.isLoggedIn then
    match u.user with
    | some usr => usr.username
    | Option.none => u.unregisteredUsername
  else u.unregisteredUsername

/-- Source `RoomUser.updateInfo`.  The user lookup (`usermanager.getUser`) is an
external collaborator, passed in as `getU`.  The source guards each branch
with JavaScript truthiness, mirrored by `truthyNat` / `truthyStr`; a present
`status` always overwrites (its enum values are nonempty strings). -/
def RoomUser.updateInfo (getU : Nat → User) (u : RoomUser) (info : ClientInfo) : RoomUser :=
  let u1 :=
    if truthyNat info.user_id then
      { u with user_id := info.user_id, user := some (getU (info.user_id.getD 0)) }
    else if truthyStr info.username then
      { u with unregisteredUsername := info.username.getD "",
               user_id := Option.none, user := Option.none }
    else u
  match info.status with
  | some st => { u1 with playerStatus := st }
  | Option.none => u1

/-- Modelled from the spec: the `Grants` class lives in `permissions.js`,
which is not among the covered sources; per the spec it stores an integer
bitmask per role, `check(role, permissionName)` looks up the bit for the
permission name and tests it in the role's mask (failing with
`PermissionDenied` otherwise), and `getMask(role)` returns the role's mask.
The bit assignment per permission name is abstracted as `bit`. -/
structure Grants where
  masks : Role → Nat
  bit : String → Nat

/-- Boolean form of `Grants.check`: true when the permission bit is present
in the role's mask. -/
def Grants.checkB (g : Grants) (r : Role) (perm : String) : Bool :=
  (g.masks r).testBit (g.bit perm)

/-- Source `Grants.getMask`. -/
def Grants.getMask (g : Grants) (r : Role) : Nat := g.masks r

/-- Entry of the computed `users` list sent in syncs. -/
structure RoomUserInfo where
  id : String
  name : String
  isLoggedIn : Bool
  status : PlayerStatus
  role : Role
deriving DecidableEq, Repr

/-- Room visibility. -/
inductive Visibility where
  | Public
  | Unlisted
deriving DecidableEq, Repr

/-- Queue mode. -/
inductive QueueMode where
  | Manual
  | Vote
deriving DecidableEq, Repr

/-- The `additional` payload attached to published room events, echoed back
by clients inside `UndoRequest`s. -/
structure EventContext where
  video : Option Video := Option.none
  prevPosition : Option Rat := Option.none
  queueIdx : Option Nat := Option.none
deriving DecidableEq, Repr

/-- The request type tags (`RoomRequestType` in the source). -/
inductive RoomRequestType where
  | JoinRequest
  | LeaveRequest
  | PlaybackRequest
  | SkipRequest
  | SeekRequest
  | AddRequest
  | RemoveRequest
  | OrderRequest
  | VoteRequest
  | PromoteRequest
  | UpdateUser
  | ChatRequest
  | UndoRequest
deriving DecidableEq, Repr

/-- Room requests.  `UndoRequest` carries the prior event: the request it is
undoing and the `additional` context the server published with it (the
source accesses `request.event.request` and `request.event.additional`). -/
inductive RoomRequest where
  | JoinRequest (client : String) (info : ClientInfo)
  | LeaveRequest (client : String)
  | PlaybackRequest (client : String) (state : Bool)
  | SkipRequest (client : String)
  | SeekRequest (client : String) (value : Option Rat)
  | AddRequest (client : String) (video : Option Video) (videos : Option (List Video))
      (url : Option String)
  | RemoveRequest (client : String) (video : Option Video)
  | OrderRequest (client : String) (fromIdx : Nat) (toIdx : Nat)
  | VoteRequest (client : String) (video : Video) (add : Bool)
  | PromoteRequest (client : String) (targetClientId : String) (role : Role)
  | UpdateUser (client : String) (info : ClientInfo)
  | ChatRequest (client : String) (text : String)
  | UndoRequest (client : String) (eventRequest : RoomRequest) (additional : EventContext)
deriving DecidableEq, Repr

/-- Source `request.client`. -/
def RoomRequest.client : RoomRequest → String
  | .JoinRequest c _ => c
  | .LeaveRequest c => c
  | .PlaybackRequest c _ => c
  | .SkipRequest c => c
  | .SeekRequest c _ => c
  | .AddRequest c _ _ _ => c
  | .RemoveRequest c _ => c
  | .OrderRequest c _ _ => c
  | .VoteRequest c _ _ => c
  | .PromoteRequest c _ _ => c
  | .UpdateUser c _ => c
  | .ChatRequest c _ => c
  | .UndoRequest c _ _ => c

/-- Source `request.type`. -/
def RoomRequest.rtype : RoomRequest → RoomRequestType
  | .JoinRequest _ _ => .JoinRequest
  | .LeaveRequest _ => .LeaveRequest
  | .PlaybackRequest _ _ => .PlaybackRequest
  | .SkipRequest _ => .SkipRequest
  | .SeekRequest _ _ => .SeekRequest
  | .AddRequest _ _ _ _ => .AddRequest
  | .RemoveRequest _ _ => .RemoveRequest
  | .OrderRequest _ _ _ => .OrderRequest
  | .VoteRequest _ _ _ => .VoteRequest
  | .PromoteRequest _ _ _ => .PromoteRequest
  | .UpdateUser _ _ => .UpdateUser
  | .ChatRequest _ _ => .ChatRequest
  | .UndoRequest _ _ _ => .UndoRequest

/-- Whether a request is an `UndoRequest`. -/
def RoomRequest.isUndo : RoomRequest → Bool
  | .UndoRequest _ _ _ => true
  | _ => false

/-- Errors thrown by the room code.  `typeError` stands for the JavaScript
`TypeError` raised when `getRole` is reached with an absent user. -/
inductive RoomError where
  | permissionDenied
  | videoAlreadyQueued
  | videoNotFound
  | impossiblePromotion
  | typeError
deriving DecidableEq, Repr

/-- The authoritative per-room state (the fields of class `Room`; the
backing `_foo` fields of getter/setter pairs appear under their logical
names, and `dirty` is the `_dirty` set of prop names). -/
structure RoomState where
  name : String
  title : String
  description : String
  visibility : Visibility
  queueMode : QueueMode
  isTemporary : Bool
  currentSource : Option Video
  queue : List Video
  isPlaying : Bool
  playbackPosition : Rat
  grants : Grants
  realusers : List RoomUser
  userRoles : Role → List Nat
  owner : Option User
  dirty : List String
  playbackStart : Option Rat
  keepAlivePing : Rat
  votes : List (String × List String)

/-- Insertion into a JavaScript `Set`, modelled as an ordered list without
duplicates: a no-op when present, appended otherwise. -/
def setAdd (l : List String) (x : String) : List String :=
  if x ∈ l then l else l ++ [x]

/-- Source `new Set(iterable)` over a list, preserving first-occurrence order. -/
def setFromList (l : List String) : List String := l.foldl setAdd []

/-- Iterating a JavaScript string yields its characters; `new Set(str)`
therefore collects the one-character strings of `str`. -/
def strChars (str : String) : List String :=
  str.toList.map (fun ch => String.mk [ch])

/-- Lookup in the `votes` map (a JavaScript `Map` modelled as an
association list). -/
def mapLookup (m : List (String × List String)) (k : String) : Option (List String) :=
  match m.find? (fun kv => kv.1 == k) with
  | some kv => some kv.2
  | Option.none => Option.none

/-- Source `Map.set`: replace the entry in place when present, append otherwise. -/
def mapSet (m : List (String × List String)) (k : String) (v : List String) :
    List (String × List String) :=
  if (m.find? (fun kv => kv.1 == k)).isSome then
    m.map (fun kv => if kv.1 == k then (k, v) else kv)
  else m ++ [(k, v)]

/-- A fresh room as the constructor builds it (queue empty, nothing playing,
no participants, dirty set empty). -/
def mkRoom (name : String) (grants : Grants) : RoomState :=
  { name := name
    title := ""
    description := ""
    visibility := .Public
    queueMode := .Manual
    isTemporary := false
    currentSource := Option.none
    queue := []
    isPlaying := false
    playbackPosition := 0
    grants := grants
    realusers := []
    userRoles := fun _ => []
    owner := Option.none
    dirty := []
    playbackStart := Option.none
    keepAlivePing := 0
    votes := [] }

namespace Room

/-- Source `markDirty(prop)`: insert the prop name into the dirty set (the
debounce-scheduled sync it also arms is modelled separately as `sync`). -/
def markDirty (prop : String) (s : RoomState) : RoomState :=
  { s with dirty := setAdd s.dirty prop }

/-- The `currentSource` property setter (assign, then mark dirty). -/
def setCurrentSource (s : RoomState) (v : Option Video) : RoomState :=
  markDirty "currentSource" { s with currentSource := v }

/-- The `isPlaying` property setter. -/
def setIsPlaying (s : RoomState) (b : Bool) : RoomState :=
  markDirty "isPlaying" { s with isPlaying := b }

/-- The `playbackPosition` property setter. -/
def setPlaybackPosition (s : RoomState) (p : Rat) : RoomState :=
  markDirty "playbackPosition" { s with playbackPosition := p }

/-- Source `isOwner(user)`: truthy user account, truthy owner, matching ids. -/
def isOwner (s : RoomState) (u : RoomUser) : Bool :=
  match u.user, s.owner with
  | some a, some b => a.id == b.id
  | _, _ => false

/-- Source `getRole(user)`: owner first, then the explicit role sets from
Administrator down to TrustedUser, then the derived default. -/
def getRole (s : RoomState) (u : RoomUser) : Role :=
  if isOwner s u then .Owner
  else
    let fallback := if u.isLoggedIn then Role.RegisteredUser else Role.UnregisteredUser
    match u.user with
    | some usr =>
      if (s.userRoles .Administrator).contains usr.id then .Administrator
      else if (s.userRoles .Moderator).contains usr.id then .Moderator
      else if (s.userRoles .TrustedUser).contains usr.id then .TrustedUser
      else fallback
    | Option.none => fallback

/-- Source `getUser(client)`: linear scan of `realusers`. -/
def getUser (s : RoomState) (client : String) : Option RoomUser :=
  s.realusers.find? (fun u => u.id == client)

/-- The computed `users` list. -/
def users (s : RoomState) : List RoomUserInfo :=
  s.realusers.map (fun u =>
    { id := u.id
      name := u.username
      isLoggedIn := u.isLoggedIn
      status := u.playerStatus
      role := getRole s u })

/-- Source `getUserInfo(client)`. -/
def getUserInfo (s : RoomState) (client : String) : Option RoomUserInfo :=
  (users s).find? (fun i => i.id == client)

/-- Source `realPlaybackPosition` at wallclock `now`: the stored position plus the
elapsed time since `playbackStart` while playing. -/
def realPlaybackPosition (s : RoomState) (now : Rat) : Rat :=
  match s.playbackStart with
  | some t => s.playbackPosition + (now - t)
  | Option.none => s.playbackPosition

/-- The computed `voteCounts` map. -/
def voteCounts (s : RoomState) : List (String × Nat) :=
  s.votes.map (fun kv => (kv.1, kv.2.length))

/-- The full snapshot `sync` builds: the pick of the syncable fields plus the
computed `users` and `voteCounts`. -/
structure Snapshot where
  name : String
  title : String
  description : String
  isTemporary : Bool
  visibility : Visibility
  queueMode : QueueMode
  currentSource : Option Video
  queue : List Video
  isPlaying : Bool
  playbackPosition : Rat
  grants : Grants
  users : List RoomUserInfo
  voteCounts : List (String × Nat)
  owner : Option User

/-- Build the snapshot from the in-memory state. -/
def mkSnapshot (s : RoomState) : Snapshot :=
  { name := s.name
    title := s.title
    description := s.description
    isTemporary := s.isTemporary
    visibility := s.visibility
    queueMode := s.queueMode
    currentSource := s.currentSource
    queue := s.queue
    isPlaying := s.isPlaying
    playbackPosition := s.playbackPosition
    grants := s.grants
    users := users s
    voteCounts := voteCounts s
    owner := s.owner }

/-- Messages published to the bus.  A `sync` delta is determined by which
field names are included, the snapshot they are drawn from, and the grants
mask that unconditionally overwrites the `grants` field. -/
inductive ServerMsg where
  | sync (fields : List String) (snap : Snapshot) (grantsMask : Nat)
  | event (request : RoomRequest) (user : Option RoomUserInfo) (additional : Option EventContext)
  | chat (fromUser : Option RoomUserInfo) (text : String)
  | unload

/-- Observable interactions with the message bus: publishing to a channel
and writing a key in the shared store. -/
inductive Effect where
  | publish (channel : String) (msg : ServerMsg)
  | setKey (key : String) (snap : Snapshot)

/-- Source `publishRoomEvent(request, additional)`. -/
def publishRoomEvent (s : RoomState) (req : RoomRequest) (additional : Option EventContext) :
    Effect :=
  .publish ("room:" ++ s.name) (.event req (getUserInfo s req.client) additional)

/-- External collaborators the handlers suspend on, passed in as pure
functions: `InfoExtract.getVideoInfo`, `InfoExtract.getManyVideoInfo`, the
service adapter for URLs, `usermanager.getUser`, and the wallclock `dayjs()`
reading used throughout one request. -/
structure Env where
  fetch : String → String → Video
  fetchMany : List Video → List Video
  resolveUrl : String → Video
  getU : Nat → User
  now : Rat

/-- Source `dequeueNext()`: pop the queue front into `currentSource`, or stop and
clear when the queue is empty.  Note the empty-queue branch sets
`isPlaying` to false without touching `playbackStart` (unlike `pause`). -/
def dequeueNext (s : RoomState) : RoomState :=
  match s.queue with
  | v :: rest =>
    let s1 := setCurrentSource { s with queue := rest } (some v)
    let s2 := markDirty "queue" s1
    setPlaybackPosition s2 0
  | [] =>
    if s.currentSource.isSome then
      let s1 := if s.isPlaying then setIsPlaying s false else s
      let s2 := setPlaybackPosition s1 0
      setCurrentSource s2 Option.none
    else s

/-- Source `play()`. -/
def play (s : RoomState) (now : Rat) : RoomState :=
  if s.isPlaying then s
  else { setIsPlaying s true with playbackStart := some now }

/-- Source `pause()`: note `playbackPosition` is recomputed from
`realPlaybackPosition` before `playbackStart` is cleared. -/
def pause (s : RoomState) (now : Rat) : RoomState :=
  if !s.isPlaying then s
  else
    let s1 := setIsPlaying s false
    let s2 := setPlaybackPosition s1 (realPlaybackPosition s1 now)
    { s2 with playbackStart := Option.none }

/-- Source `playback(request)`: play or pause, then always publish the event. -/
def playback (env : Env) (s : RoomState) (client : String) (state : Bool) :
    RoomState × List Effect :=
  let s1 := if state then play s env.now else pause s env.now
  (s1, [publishRoomEvent s1 (.PlaybackRequest client state) Option.none])

/-- Source `skip(request)`: capture the current video and effective position, then
dequeue and publish them as the event context. -/
def skip (env : Env) (s : RoomState) (client : String) : RoomState × List Effect :=
  let current := s.currentSource
  let prevPosition := realPlaybackPosition s env.now
  let s1 := dequeueNext s
  (s1, [publishRoomEvent s1 (.SkipRequest client)
          (some { video := current, prevPosition := some prevPosition })])

/-- Source `seek(request)`: a missing value is logged and ignored (no event). -/
def seek (s : RoomState) (client : String) (value : Option Rat) : RoomState × List Effect :=
  match value with
  | Option.none => (s, [])
  | some v =>
    let prev := s.playbackPosition
    let s1 := setPlaybackPosition s v
    (s1, [publishRoomEvent s1 (.SeekRequest client (some v))
            (some { prevPosition := some prev })])

/-- Whether a single-video add collides with `currentSource`. -/
def matchesCurrent (s : RoomState) (v : Video) : Bool :=
  match s.currentSource with
  | some c => c.service == v.service && c.id == v.id
  | Option.none => false

/-- The URL branch at the top of `addToQueue`: a request URL is resolved via
the service adapter into a `(service, id)` video reference. -/
def resolveVideo (env : Env) (url : Option String) (video : Option Video) : Option Video :=
  match url with
  | some u => some (env.resolveUrl u)
  | Option.none => video

/-- Source `addToQueue(request)`: resolve a URL to a video id, dedup a single video
against `currentSource` and the queue (throwing `VideoAlreadyQueued`),
fetch metadata and append; for a batch, fetch all, drop collisions in
place, reject when nothing survives, and append the rest.  The dirty mark
on `queue` happens once at the end. -/
def addToQueue (env : Env) (s : RoomState) (client : String) (video : Option Video)
    (videos : Option (List Video)) (url : Option String) :
    Except RoomError (RoomState × List Effect) :=
  match resolveVideo env url video with
  | some v =>
    if matchesCurrent s v then .error .videoAlreadyQueued
    else if s.queue.any (fun item => matchVideo item v) then .error .videoAlreadyQueued
    else
      let fetched := env.fetch v.service v.id
      let s1 := { s with queue := s.queue ++ [fetched] }
      let eff := publishRoomEvent s1 (.AddRequest client (some v) videos url)
        (some { video := some fetched })
      .ok (markDirty "queue" s1, [eff])
  | Option.none =>
    match videos with
    | some vs =>
      let fetchedAll := env.fetchMany vs
      let survivors := fetchedAll.filter
        (fun v => !(matchesCurrent s v) && !(s.queue.any (fun item => matchVideo item v)))
      if survivors.isEmpty then .error .videoAlreadyQueued
      else
        let s1 := { s with queue := s.queue ++ survivors }
        let eff := publishRoomEvent s1 (.AddRequest client Option.none (some vs) url)
          (some { })
        .ok (markDirty "queue" s1, [eff])
    | Option.none => .ok (s, [])

/-- The `removeFromQueue` matcher: locate by `(service, id)`; a missing
video field matches nothing, as comparing against `undefined` does. -/
def removeMatcher (video : Option Video) (item : Video) : Bool :=
  match video with
  | some v => matchVideo item v
  | Option.none => false

/-- Source `removeFromQueue(request)`: locate by `(service, id)`, throw
`VideoNotFound` when absent, splice it out and publish. -/
def removeFromQueue (s : RoomState) (client : String) (video : Option Video) :
    Except RoomError (RoomState × List Effect) :=
  match s.queue.findIdx? (removeMatcher video) with
  | Option.none => .error .videoNotFound
  | some matchIdx =>
    let removed := s.queue.get? matchIdx
    let s1 := markDirty "queue" { s with queue := s.queue.eraseIdx matchIdx }
    .ok (s1, [publishRoomEvent s1 (.RemoveRequest client video)
               (some { video := removed, queueIdx := some matchIdx })])

/-- Source `reorderQueue(request)`: splice the element out of `fromIdx` and back in
at `toIdx` (clamped to the end, as `splice` clamps).  An out-of-range
`fromIdx` in the source would splice `undefined` into the queue — a
programming error per the spec — modelled as leaving the queue unchanged. -/
def reorderQueue (s : RoomState) (fromIdx toIdx : Nat) : RoomState :=
  match s.queue.get? fromIdx with
  | some v =>
    let q1 := s.queue.eraseIdx fromIdx
    markDirty "queue" { s with queue := q1.take toIdx ++ v :: q1.drop toIdx }
  | Option.none => markDirty "queue" s

/-- Source `joinRoom(request)`: build the `RoomUser` from `request.info`, append it,
mark users dirty and publish. -/
def joinRoom (env : Env) (s : RoomState) (client : String) (info : ClientInfo) :
    RoomState × List Effect :=
  let user := RoomUser.updateInfo env.getU (mkRoomUser info.id) info
  let s1 := markDirty "users" { s with realusers := s.realusers ++ [user] }
  (s1, [publishRoomEvent s1 (.JoinRequest client info) Option.none])

/-- Source `leaveRoom(request)`: remove the first participant with the client id
(marking users dirty only when one was found), then publish. -/
def leaveRoom (s : RoomState) (client : String) : RoomState × List Effect :=
  let s1 :=
    match s.realusers.findIdx? (fun u => u.id == client) with
    | some i => markDirty "users" { s with realusers := s.realusers.eraseIdx i }
    | Option.none => s
  (s1, [publishRoomEvent s1 (.LeaveRequest client) Option.none])

/-- Source `updateUser(request)`: update every participant whose id matches
`info.id`, marking users dirty for each match. -/
def updateUser (env : Env) (s : RoomState) (info : ClientInfo) : RoomState :=
  let updated := s.realusers.map
    (fun u => if u.id == info.id then u.updateInfo env.getU info else u)
  let s1 := { s with realusers := updated }
  if s.realusers.any (fun u => u.id == info.id) then markDirty "users" s1 else s1

/-- Source `chat(request)`: publish only; chat is not room state. -/
def chat (s : RoomState) (client : String) (text : String) : RoomState × List Effect :=
  (s, [.publish ("room:" ++ s.name) (.chat (getUserInfo s client) text)])

/-- Source `vote(request)`: key is `service + id`.  When the key exists, insert or
discard the client id; when absent and adding, the source builds
`new Set(request.client)`, which iterates the client-id string into its
characters.  `voteCounts` is marked dirty in every path. -/
def vote (s : RoomState) (client : String) (video : Video) (add : Bool) : RoomState :=
  let key := video.service ++ video.id
  let s1 :=
    match mapLookup s.votes key with
    | some vs =>
      { s with votes := mapSet s.votes key (if add then setAdd vs client else vs.erase client) }
    | Option.none =>
      if add then { s with votes := mapSet s.votes key (setFromList (strChars client)) }
      else s
  markDirty "voteCounts" s1

/-- Remove a user id from the Administrator, Moderator and TrustedUser sets
(the loop body of `promoteUser`; the stray `this.userRoles[i] = ...`
property write in the source is ignored, as the spec directs). -/
def clearRoles (ur : Role → List Nat) (uid : Option Nat) : Role → List Nat :=
  fun r =>
    match uid with
    | some u =>
      if r = .Administrator ∨ r = .Moderator ∨ r = .TrustedUser then (ur r).erase u
      else ur r
    | Option.none => ur r

/-- The promote-to-role permission name (`undefined` for other roles, whose
behavior then lives in the external `permissions.js`; modelled per the spec
as a check that cannot fail when no permission name is defined). -/
def promotePermFor : Role → Option String
  | .Administrator => some "manage-users.promote-admin"
  | .Moderator => some "manage-users.promote-moderator"
  | .TrustedUser => some "manage-users.promote-trusted-user"
  | _ => Option.none

/-- The promoter-side check of `promoteUser`. -/
def promoteOk1 (g : Grants) (promoterRole : Role) (perm : Option String) : Bool :=
  match perm with
  | some p => g.checkB promoterRole p
  | Option.none => true

/-- The demotion gate of `promoteUser`: when the requested role is below the
target's current role, the requested role itself must hold the matching
demote permission; demoting from a non-explicit role is impossible. -/
def demoteGate (g : Grants) (role targetCurrentRole : Role) : Except RoomError Unit :=
  if role.toNat < targetCurrentRole.toNat then
    match targetCurrentRole with
    | .Administrator =>
      if g.checkB role "manage-users.demote-admin" then .ok ()
      else .error .permissionDenied
    | .Moderator =>
      if g.checkB role "manage-users.demote-moderator" then .ok ()
      else .error .permissionDenied
    | .TrustedUser =>
      if g.checkB role "manage-users.demote-trusted-user" then .ok ()
      else .error .permissionDenied
    | _ => .error .impossiblePromotion
  else .ok ()

/-- The updated role sets after a successful promotion: the target is
cleared from every explicit set and inserted into the new role's set (when
the new role has one). -/
def promotedRoles (ur : Role → List Nat) (uid : Option Nat) (role : Role) : Role → List Nat :=
  let ur1 := clearRoles ur uid
  if role = .Administrator ∨ role = .Moderator ∨ role = .TrustedUser then
    fun r => if r = role then
        (match uid with
         | some u => if (ur1 r).contains u then ur1 r else ur1 r ++ [u]
         | Option.none => ur1 r)
      else ur1 r
  else ur1

/-- Source `promoteUser(request)`: the promoter needs the promote-to-role
permission; a demotion additionally needs the requested role to hold the
matching demote permission; promoting an unregistered target is impossible.
Then the target is cleared from all explicit role sets and inserted into
the new role's set. -/
def promoteUser (s : RoomState) (client targetClientId : String) (role : Role) :
    Except RoomError (RoomState × List Effect) :=
  match getUser s client with
  | Option.none => .error .typeError
  | some user =>
    match getUser s targetClientId with
    | Option.none => .error .typeError
    | some targetUser =>
      if !(promoteOk1 s.grants (getRole s user) (promotePermFor role)) then
        .error .permissionDenied
      else
        match demoteGate s.grants role (getRole s targetUser) with
        | .error e => .error e
        | .ok _ =>
          if getRole s targetUser = .UnregisteredUser then .error .impossiblePromotion
          else
            .ok (markDirty "users"
              { s with userRoles := promotedRoles s.userRoles targetUser.user_id role }, [])

/-- The generic permission map of `processRequest` (translated from the
`Map` literal in the source). -/
def permissionFor : RoomRequestType → Option String
  | .PlaybackRequest => some "playback.play-pause"
  | .SkipRequest => some "playback.skip"
  | .SeekRequest => some "playback.seek"
  | .AddRequest => some "manage-queue.add"
  | .RemoveRequest => some "manage-queue.remove"
  | .OrderRequest => some "manage-queue.order"
  | .VoteRequest => some "manage-queue.vote"
  | .ChatRequest => some "chat"
  | _ => Option.none

/-- The permission gate at the top of `processRequest`: when the request
type is in the map, resolve the acting user and check the grant.  Reaching
`getRole` with an absent user is the JavaScript `TypeError`. -/
def gateCheck (s : RoomState) (req : RoomRequest) : Except RoomError Unit :=
  match permissionFor req.rtype with
  | some perm =>
    match getUser s req.client with
    | some u =>
      if s.grants.checkB (getRole s u) perm then .ok ()
      else .error .permissionDenied
    | Option.none => .error .typeError
  | Option.none => .ok ()

/-- One step of `processRequest(request)`: the permission gate, then the
dispatch table.  The re-entrant calls made by the undo handler (undo of a
Seek re-issues a `SeekRequest`, undo of an Add re-issues a `RemoveRequest`,
both attributed to the undoing client) go through `recurse`. -/
def dispatchStep (env : Env)
    (recurse : RoomState → RoomRequest → Except RoomError (RoomState × List Effect))
    (s : RoomState) (req : RoomRequest) : Except RoomError (RoomState × List Effect) :=
  match gateCheck s req with
  | .error e => .error e
  | .ok _ =>
    match req with
    | .JoinRequest client info => .ok (joinRoom env s client info)
    | .LeaveRequest client => .ok (leaveRoom s client)
    | .PlaybackRequest client state => .ok (playback env s client state)
    | .SkipRequest client => .ok (skip env s client)
    | .SeekRequest client value => .ok (seek s client value)
    | .AddRequest client video videos url => addToQueue env s client video videos url
    | .RemoveRequest client video => removeFromQueue s client video
    | .OrderRequest _ fromIdx toIdx => .ok (reorderQueue s fromIdx toIdx, [])
    | .VoteRequest client video add => .ok (vote s client video add, [])
    | .PromoteRequest client target role => promoteUser s client target role
    | .UpdateUser _ info => .ok (updateUser env s info, [])
    | .ChatRequest client text => .ok (chat s client text)
    | .UndoRequest client eventRequest additional =>
      match eventRequest with
      | .SeekRequest _ _ =>
        recurse s (.SeekRequest client additional.prevPosition)
      | .SkipRequest _ =>
        let s1 :=
          match s.currentSource with
          | some cur => markDirty "queue" { s with queue := cur :: s.queue }
          | Option.none => s
        let s2 := setCurrentSource s1 additional.video
        let s3 :=
          match additional.prevPosition with
          | some p => setPlaybackPosition s2 p
          | Option.none => s2
        .ok (s3, [])
      | .AddRequest _ video _ _ =>
        if s.queue.length > 0 then
          recurse s (.RemoveRequest client video)
        else
          .ok (setCurrentSource s Option.none, [])
      | .RemoveRequest _ video =>
        let k := additional.queueIdx.getD 0
        let q1 :=
          match video with
          | some v => s.queue.take k ++ v :: s.queue.drop k
          | Option.none => s.queue
        .ok (markDirty "queue" { s with queue := q1 }, [])
      | _ => .ok (s, [])

/-- Source `processRequest(request)` with explicit fuel for the undo handler's
re-entrant calls.  The only recursion in the source is undo re-issuing a
Seek or Remove request (which never recurses again), so a fuel of 2
computes every reachable behavior; the fuel-0 fallback is unreachable from
the public entry point. -/
def processRequestFuel (env : Env) : Nat → RoomState → RoomRequest →
    Except RoomError (RoomState × List Effect)
  | 0, _, _ => .error .typeError
  | fuel + 1, s, req => dispatchStep env (processRequestFuel env fuel) s req

/-- The public `processRequest` entry point. -/
def processRequest (env : Env) (s : RoomState) (req : RoomRequest) :
    Except RoomError (RoomState × List Effect) :=
  processRequestFuel env 2 s req

/-- Source `sync()`: nothing when clean; otherwise write the full snapshot to the
key `room:` + name, publish the delta restricted to the dirty field names
with the grants mask unconditionally overwritten, and clear the dirty set.
Note the write key uses the `room:` channel name, not the `room-sync:` key
the client manager reads. -/
def sync (s : RoomState) : RoomState × List Effect :=
  if s.dirty.isEmpty then (s, [])
  else
    let snap := mkSnapshot s
    let msg := ServerMsg.sync s.dirty snap (s.grants.getMask .Owner)
    ({ s with dirty := [] },
     [Effect.setKey ("room:" ++ s.name) snap,
      Effect.publish ("room:" ++ s.name) msg])

end Room

/-- The `(service, id)` pairs observable across `queue` together with
`currentSource`. -/
def stateKeys (s : RoomState) : List (String × String) :=
  (match s.currentSource with
   | some v => [vkey v]
   | Option.none => []) ++ s.queue.map vkey

/-- The dedup invariant of the spec: no `(service, id)` pair appears more
than once across `queue` together with `currentSource`. -/
def NoDupKeys (s : RoomState) : Prop := (stateKeys s).Nodup

instance (s : RoomState) : Decidable (NoDupKeys s) :=
  inferInstanceAs (Decidable (stateKeys s).Nodup)

/-- The dedup invariant holds of the state a request handler produced (an
aborted request produced no state and preserves it vacuously). -/
def nodupOk : Except RoomError (RoomState × List Room.Effect) → Prop
  | .ok (s, _) => NoDupKeys s
  | .error _ => True

instance : (r : Except RoomError (RoomState × List Room.Effect)) → Decidable (nodupOk r)
  | .ok (s, _) => inferInstanceAs (Decidable (NoDupKeys s))
  | .error _ => Decidable.isTrue trivial

/-- Whether a handler result is a success. -/
def isOkB : Except RoomError (RoomState × List Room.Effect) → Bool
  | .ok _ => true
  | .error _ => false

/-- The state a handler result carries, with a fallback for the error case. -/
def stepState (r : Except RoomError (RoomState × List Room.Effect)) (fallback : RoomState) :
    RoomState :=
  match r with
  | .ok (s, _) => s
  | .error _ => fallback

/-- Grants whose every check passes (mask 1, every permission at bit 0). -/
def gAllow : Grants := { masks := fun _ => 1, bit := fun _ => 0 }

/-- Grants whose every check fails (mask 0). -/
def gDeny : Grants := { masks := fun _ => 0, bit := fun _ => 0 }

/-- A sample video. -/
def vidA : Video := { service := "youtube", id := "A", length := 0 }

/-- Another sample video. -/
def vidB : Video := { service := "youtube", id := "B", length := 0 }

/-- A concrete environment: metadata fetch returns the requested ids with
trivial metadata, batch fetch is pointwise, the clock reads 0. -/
def envTest : Room.Env :=
  { fetch := fun sv vid => { service := sv, id := vid, length := 0 }
    fetchMany := fun l => l
    resolveUrl := fun _ => { service := "direct", id := "u", length := 0 }
    getU := fun n => { id := n, username := "user" }
    now := 0 }

/-- The permission map as the spec words it (the table in the request
dispatch section), written independently of the source map so the two can
be compared. -/
def specPermissionFor : RoomRequestType → Option String
  | .PlaybackRequest => some "playback.play-pause"
  | .SkipRequest => some "playback.skip"
  | .SeekRequest => some "playback.seek"
  | .AddRequest => some "manage-queue.add"
  | .RemoveRequest => some "manage-queue.remove"
  | .OrderRequest => some "manage-queue.order"
  | .VoteRequest => some "manage-queue.vote"
  | .ChatRequest => some "chat"
  | .JoinRequest => Option.none
  | .LeaveRequest => Option.none
  | .UpdateUser => Option.none
  | .PromoteRequest => Option.none
  | .UndoRequest => Option.none

/-- A room playing its last video (empty queue), for exercising
`dequeueNext`'s stop branch. -/
def c2Room : RoomState :=
  { mkRoom "r" gAllow with
    currentSource := some vidA
    isPlaying := true
    playbackStart := some 10 }

/-- A room with one dirty field, for exercising `sync`. -/
def c3Room : RoomState := Room.markDirty "title" (mkRoom "foo" gAllow)

/-- A fresh room with no votes, for exercising `vote`'s creation path. -/
def c7Room : RoomState := mkRoom "r" gAllow

/-- A participant known only by an unregistered name. -/
def c8User : RoomUser := { mkRoomUser "c" with unregisteredUsername := "bob" }

/-- Client info carrying a registered user id. -/
def c8Info : ClientInfo := { id := "c", user_id := some 1 }

/-- A user lookup collaborator returning a fixed account. -/
def c8GetU : Nat → User := fun n => { id := n, username := "alice" }

/-- A room with one member and grants that deny everything. -/
def c6Room : RoomState := { mkRoom "r" gDeny with realusers := [mkRoomUser "c"] }

/-- A deny-everything room with a current video and an empty queue. -/
def c9Room : RoomState :=
  { mkRoom "r" gDeny with
    currentSource := some vidA
    realusers := [mkRoomUser "c"] }

/-- A deny-everything room with a member and a non-empty queue. -/
def c9WRoom : RoomState :=
  { mkRoom "r" gDeny with
    realusers := [mkRoomUser "c"]
    queue := [vidA] }

/-- A room whose only participant is client "a". -/
def c10Room : RoomState := { mkRoom "r" gAllow with realusers := [mkRoomUser "a"] }

/-- A fresh room, start of the C1 request chain. -/
def c1Room0 : RoomState := mkRoom "r" gAllow

/-- After client "c" joins. -/
def c1Room1 : RoomState :=
  stepState (Room.processRequest envTest c1Room0 (.JoinRequest "c" { id := "c" })) c1Room0

/-- After adding video A. -/
def c1Room2 : RoomState :=
  stepState (Room.processRequest envTest c1Room1
    (.AddRequest "c" (some vidA) Option.none Option.none)) c1Room1

/-- After adding video B. -/
def c1Room3 : RoomState :=
  stepState (Room.processRequest envTest c1Room2
    (.AddRequest "c" (some vidB) Option.none Option.none)) c1Room2

/-- After a skip: A is current, B queued. -/
def c1Room4 : RoomState :=
  stepState (Room.processRequest envTest c1Room3 (.SkipRequest "c")) c1Room3

/-- An undo of the skip whose client-supplied payload names the queued
video B as the video to restore. -/
def c1UndoReq : RoomRequest :=
  .UndoRequest "c" (.SkipRequest "c") { video := some vidB, prevPosition := some 0 }

/-- After processing the adversarial undo. -/
def c1Room5 : RoomState :=
  stepState (Room.processRequest envTest c1Room4 c1UndoReq) c1Room4

/-- An environment whose batch fetch returns nothing (so its results are
trivially duplicate-free). -/
def c1WitnessEnv : Room.Env := { envTest with fetchMany := fun _ => [] }

/-- A playing room used to exercise skip-then-undo while the clock runs. -/
def c5Room : RoomState :=
  { mkRoom "r" gAllow with
    currentSource := some vidA
    queue := [vidB]
    isPlaying := true
    playbackStart := some 0
    playbackPosition := 10 }

/-- The clock reads 5 when the skip happens. -/
def c5Env : Room.Env := { envTest with now := 5 }

/-- The event context the skip publishes (video A, effective position). -/
def c5Ctx : EventContext :=
  { video := some vidA, prevPosition := some (Room.realPlaybackPosition c5Room 5) }

/-- The room state right after the skip. -/
def c5AfterSkip : RoomState := (Room.skip c5Env c5Room "c").1

/-- The room state after undoing the skip with its own event payload. -/
def c5AfterUndo : RoomState :=
  stepState (Room.processRequest c5Env c5AfterSkip
    (.UndoRequest "c" (.SkipRequest "c") c5Ctx)) c5AfterSkip

/-- A paused room with a current video, for the C5 witness. -/
def c5WRoom : RoomState :=
  { mkRoom "w" gAllow with currentSource := some vidA, queue := [vidB] }

/-- What undoing a skip should restore: the handler result succeeds and its
state carries the original `currentSource`, the original queue, and the
given playback position. -/
def c5Restores (s : RoomState) (pos : Rat) :
    Except RoomError (RoomState × List Room.Effect) → Prop
  | .ok (s2, _) => s2.currentSource = s.currentSource ∧ s2.queue = s.queue ∧
      s2.playbackPosition = pos
  | .error _ => False

-- ===== helper lemmas =====

lemma processRequest_eq (env : Room.Env) (s : RoomState) (req : RoomRequest) :
    Room.processRequest env s req =
      Room.dispatchStep env (Room.processRequestFuel env 1) s req := rfl

lemma processRequestFuel_one (env : Room.Env) (s : RoomState) (req : RoomRequest) :
    Room.processRequestFuel env 1 s req =
      Room.dispatchStep env (Room.processRequestFuel env 0) s req := rfl

lemma perm_take_cons_drop {α : Type} (a : α) :
    ∀ (n : Nat) (l : List α), List.Perm (l.take n ++ a :: l.drop n) (a :: l)
  | 0, l => by simp
  | n + 1, [] => by simp
  | n + 1, x :: xs => by
    simp only [List.take_succ_cons, List.drop_succ_cons, List.cons_append]
    exact ((perm_take_cons_drop a n xs).cons x).trans (List.Perm.swap a x xs)

lemma perm_cons_eraseIdx {α : Type} (v : α) :
    ∀ (i : Nat) (l : List α), l.get? i = some v → List.Perm l (v :: l.eraseIdx i)
  | _, [], h => by simp at h
  | 0, x :: xs, h => by
    simp only [List.get?_cons_zero, Option.some.injEq] at h
    subst h
    simp [List.eraseIdx]
  | i + 1, x :: xs, h => by
    simp only [List.get?_cons_succ] at h
    have h1 := (perm_cons_eraseIdx v i xs h).cons x
    have h2 : List.Perm (x :: v :: xs.eraseIdx i) (v :: x :: xs.eraseIdx i) :=
      List.Perm.swap v x (xs.eraseIdx i)
    exact h1.trans h2

lemma matchVideo_iff (a b : Video) : matchVideo a b = true ↔ vkey a = vkey b := by
  simp [matchVideo, vkey, Prod.ext_iff]

lemma nodup_dequeueNext (s : RoomState) (h : NoDupKeys s) : NoDupKeys (Room.dequeueNext s) := by
  unfold NoDupKeys stateKeys at h ⊢
  unfold Room.dequeueNext
  cases hq : s.queue with
  | nil =>
    cases hc : s.currentSource with
    | none =>
      simp only [hc, Option.isSome_none, Bool.false_eq_true, if_false]
      simp [hc, hq]
    | some v =>
      cases hp : s.isPlaying <;>
        simp [hp, hc, Room.setCurrentSource, Room.setPlaybackPosition, Room.setIsPlaying,
          Room.markDirty, hq]
  | cons v rest =>
    rw [hq] at h
    simp only [Room.setCurrentSource, Room.setPlaybackPosition, Room.markDirty, List.map_cons]
    exact List.Nodup.of_append_right h

lemma nodup_skip (env : Room.Env) (s : RoomState) (client : String) (h : NoDupKeys s) :
    NoDupKeys (Room.skip env s client).1 := by
  unfold Room.skip
  exact nodup_dequeueNext s h

lemma nodup_playback (env : Room.Env) (s : RoomState) (client : String) (b : Bool)
    (h : NoDupKeys s) : NoDupKeys (Room.playback env s client b).1 := by
  unfold Room.playback Room.play Room.pause
  cases b <;> cases hp : s.isPlaying <;>
    simp_all [NoDupKeys, stateKeys, Room.setIsPlaying, Room.setPlaybackPosition, Room.markDirty]

lemma nodup_seek (s : RoomState) (client : String) (value : Option Rat) (h : NoDupKeys s) :
    NoDupKeys (Room.seek s client value).1 := by
  unfold Room.seek
  cases value <;> simp_all [NoDupKeys, stateKeys, Room.setPlaybackPosition, Room.markDirty]

lemma nodup_vote (s : RoomState) (client : String) (video : Video) (add : Bool)
    (h : NoDupKeys s) : NoDupKeys (Room.vote s client video add) := by
  unfold Room.vote
  cases hl : mapLookup s.votes (video.service ++ video.id) <;>
    cases add <;> simp_all [NoDupKeys, stateKeys, Room.markDirty]

lemma nodup_joinRoom (env : Room.Env) (s : RoomState) (client : String) (info : ClientInfo)
    (h : NoDupKeys s) : NoDupKeys (Room.joinRoom env s client info).1 := by
  unfold Room.joinRoom
  simp_all [NoDupKeys, stateKeys, Room.markDirty]

lemma nodup_leaveRoom (s : RoomState) (client : String) (h : NoDupKeys s) :
    NoDupKeys (Room.leaveRoom s client).1 := by
  unfold Room.leaveRoom
  cases hf : s.realusers.findIdx? (fun u => u.id == client) <;>
    simp_all [NoDupKeys, stateKeys, Room.markDirty]

lemma nodup_updateUser (env : Room.Env) (s : RoomState) (info : ClientInfo)
    (h : NoDupKeys s) : NoDupKeys (Room.updateUser env s info) := by
  unfold Room.updateUser
  cases ha : s.realusers.any (fun u => u.id == info.id) <;>
    simp_all [NoDupKeys, stateKeys, Room.markDirty]

lemma nodup_chat (s : RoomState) (client : String) (text : String) (h : NoDupKeys s) :
    NoDupKeys (Room.chat s client text).1 := h

lemma nodup_reorderQueue (s : RoomState) (fromIdx toIdx : Nat) (h : NoDupKeys s) :
    NoDupKeys (Room.reorderQueue s fromIdx toIdx) := by
  unfold Room.reorderQueue
  cases hg : s.queue.get? fromIdx with
  | none => simp_all [NoDupKeys, stateKeys, Room.markDirty]
  | some v =>
    unfold NoDupKeys stateKeys at h ⊢
    simp only [Room.markDirty]
    have hperm1 : List.Perm ((s.queue.eraseIdx fromIdx).take toIdx ++
        v :: (s.queue.eraseIdx fromIdx).drop toIdx) (v :: s.queue.eraseIdx fromIdx) :=
      perm_take_cons_drop v toIdx (s.queue.eraseIdx fromIdx)
    have hperm2 : List.Perm s.queue (v :: s.queue.eraseIdx fromIdx) :=
      perm_cons_eraseIdx v fromIdx s.queue hg
    have hq : List.Perm (s.queue.map vkey)
        (((s.queue.eraseIdx fromIdx).take toIdx ++
          v :: (s.queue.eraseIdx fromIdx).drop toIdx).map vkey) :=
      (hperm2.trans hperm1.symm).map vkey
    exact (List.Perm.append_left _ hq).nodup h

lemma nodup_removeFromQueue (s : RoomState) (client : String) (video : Option Video)
    (h : NoDupKeys s) : nodupOk (Room.removeFromQueue s client video) := by
  unfold Room.removeFromQueue
  cases hf : s.queue.findIdx? (Room.removeMatcher video) with
  | none => trivial
  | some i =>
    simp only [nodupOk]
    unfold NoDupKeys stateKeys at h ⊢
    simp only [Room.markDirty]
    have hsub : List.Sublist ((s.queue.eraseIdx i).map vkey) (s.queue.map vkey) :=
      (List.eraseIdx_sublist s.queue i).map vkey
    exact h.sublist (List.Sublist.append_left hsub _)

lemma nodup_promoteUser (s : RoomState) (client target : String) (role : Role)
    (h : NoDupKeys s) : nodupOk (Room.promoteUser s client target role) := by
  unfold Room.promoteUser
  repeat' split
  all_goals trivial

lemma nodup_addToQueue (env : Room.Env) (s : RoomState) (client : String)
    (video : Option Video) (videos : Option (List Video)) (url : Option String)
    (h : NoDupKeys s)
    (hfetch : ∀ sv vid, vkey (env.fetch sv vid) = (sv, vid))
    (hmany : ∀ vs, ((env.fetchMany vs).map vkey).Nodup) :
    nodupOk (Room.addToQueue env s client video videos url) := by
  unfold Room.addToQueue
  cases hr : Room.resolveVideo env url video with
  | some v =>
    cases h1 : Room.matchesCurrent s v with
    | true => simp [h1, nodupOk]
    | false =>
      cases h2 : s.queue.any (fun item => matchVideo item v) with
      | true => simp [h1, h2, nodupOk]
      | false =>
        simp only [h1, h2, Bool.false_eq_true, if_false]
        simp only [nodupOk]
        unfold NoDupKeys stateKeys at h ⊢
        simp only [Room.markDirty, List.map_append, List.map_cons, List.map_nil]
        have hk : vkey (env.fetch v.service v.id) = vkey v := by
          rw [hfetch]; rfl
        rw [hk]
        have hperm : List.Perm
            (((match s.currentSource with
               | some c => [vkey c]
               | Option.none => []) ++ s.queue.map vkey) ++ [vkey v])
            (vkey v :: ((match s.currentSource with
               | some c => [vkey c]
               | Option.none => []) ++ s.queue.map vkey)) :=
          List.perm_append_singleton _ _
        rw [← List.append_assoc]
        apply hperm.symm.nodup
        rw [List.nodup_cons]
        refine ⟨?_, h⟩
        rw [List.mem_append]
        push_neg
        constructor
        · cases hc : s.currentSource with
          | none => simp
          | some c =>
            simp only [List.mem_singleton]
            intro hcontra
            have hmv : matchVideo c v = true := by rw [matchVideo_iff, hcontra]
            unfold Room.matchesCurrent at h1
            rw [hc] at h1
            simp [matchVideo] at hmv h1
            exact h1 hmv.1 hmv.2
        · intro hcontra
          rcases List.mem_map.mp hcontra with ⟨item, hitem, hkey⟩
          have hmv : matchVideo item v = true := by rw [matchVideo_iff, hkey]
          have hany : s.queue.any (fun item => matchVideo item v) = true := by
            rw [List.any_eq_true]
            exact ⟨item, hitem, hmv⟩
          rw [h2] at hany
          simp at hany
  | none =>
    cases videos with
    | none => simp only [nodupOk]; exact h
    | some vs =>
      cases hempty : (((env.fetchMany vs)).filter
          (fun v => !(Room.matchesCurrent s v) &&
            !(s.queue.any (fun item => matchVideo item v)))).isEmpty with
      | true => simp [hempty, nodupOk]
      | false =>
        simp only [hempty, Bool.false_eq_true, if_false]
        simp only [nodupOk]
        unfold NoDupKeys stateKeys at h ⊢
        simp only [Room.markDirty, List.map_append]
        rw [← List.append_assoc]
        rw [List.nodup_append]
        refine ⟨h, ?_, ?_⟩
        · exact ((List.filter_sublist (env.fetchMany vs)).map vkey).nodup (hmany vs)
        · intro a haX hasmap
          rcases List.mem_map.mp hasmap with ⟨x, hx, hkey⟩
          rcases List.mem_filter.mp hx with ⟨hxmem, hxpred⟩
          simp only [Bool.and_eq_true, Bool.not_eq_true'] at hxpred
          obtain ⟨hp1, hp2⟩ := hxpred
          rw [List.mem_append] at haX
          rcases haX with haCs | haQ
          · revert haCs
            cases hc : s.currentSource with
            | none => simp
            | some c =>
              simp only [List.mem_singleton]
              intro hcontra
              unfold Room.matchesCurrent at hp1
              rw [hc] at hp1
              have hvv : vkey c = vkey x := by rw [← hcontra, ← hkey]
              have hmv : matchVideo c x = true := (matchVideo_iff c x).mpr hvv
              simp [matchVideo] at hmv hp1
              exact hp1 hmv.1 hmv.2
          · rcases List.mem_map.mp haQ with ⟨item, hitem, hkey2⟩
            have hmv : matchVideo item x = true := by
              rw [matchVideo_iff, hkey2, hkey]
            have hany : s.queue.any (fun it => matchVideo it x) = true := by
              rw [List.any_eq_true]
              exact ⟨item, hitem, hmv⟩
            rw [hp2] at hany
            simp at hany

/-- C1 counterexample: the claim says no (service,id) pair appears twice
across the queue together with currentSource for every reachable state and
every sequence of processed requests, UndoRequests included.  It is false:
from a fresh room, the processed sequence join, add A, add B, skip reaches
a duplicate-free state with A current and B queued, and then one
UndoRequest for the skip whose client-supplied payload names B as the
video to restore leaves B both as currentSource and in the queue. -/
theorem C1_counterexample :
    isOkB (Room.processRequest envTest c1Room0 (.JoinRequest "c" { id := "c" })) = true ∧
    isOkB (Room.processRequest envTest c1Room1
      (.AddRequest "c" (some vidA) Option.none Option.none)) = true ∧
    isOkB (Room.processRequest envTest c1Room2
      (.AddRequest "c" (some vidB) Option.none Option.none)) = true ∧
    isOkB (Room.processRequest envTest c1Room3 (.SkipRequest "c")) = true ∧
    isOkB (Room.processRequest envTest c1Room4 c1UndoReq) = true ∧
    NoDupKeys c1Room4 ∧ ¬ NoDupKeys c1Room5 := by decide

/-- C1 (amended): the dedup invariant over queue together with
currentSource is preserved by processRequest for every request other than
an UndoRequest, assuming the metadata fetcher returns videos under the
requested (service,id) and batch fetches return pairwise-distinct keys
(the batch filter only checks against currentSource and the queue, not
within the batch). -/
theorem C1_amended_no_dup_preserved (env : Room.Env) (s : RoomState) (req : RoomRequest)
    (hs : NoDupKeys s) (hreq : req.isUndo = false)
    (hfetch : ∀ sv vid, vkey (env.fetch sv vid) = (sv, vid))
    (hmany : ∀ vs, ((env.fetchMany vs).map vkey).Nodup) :
    nodupOk (Room.processRequest env s req) := by
  rw [processRequest_eq]
  unfold Room.dispatchStep
  cases hg : Room.gateCheck s req with
  | error e => trivial
  | ok u =>
    cases req with
    | JoinRequest client info => exact nodup_joinRoom env s client info hs
    | LeaveRequest client => exact nodup_leaveRoom s client hs
    | PlaybackRequest client b => exact nodup_playback env s client b hs
    | SkipRequest client => exact nodup_skip env s client hs
    | SeekRequest client value => exact nodup_seek s client value hs
    | AddRequest client video videos url =>
      exact nodup_addToQueue env s client video videos url hs hfetch hmany
    | RemoveRequest client video => exact nodup_removeFromQueue s client video hs
    | OrderRequest client fromIdx toIdx => exact nodup_reorderQueue s fromIdx toIdx hs
    | VoteRequest client video add => exact nodup_vote s client video add hs
    | PromoteRequest client target role => exact nodup_promoteUser s client target role hs
    | UpdateUser client info => exact nodup_updateUser env s info hs
    | ChatRequest client text => exact nodup_chat s client text hs
    | UndoRequest client er ctx => simp [RoomRequest.isUndo] at hreq

/-- C1 witness: the amended theorem applied to a concrete duplicate-free
room and a skip request. -/
theorem C1_amended_witness :
    nodupOk (Room.processRequest c1WitnessEnv c1Room4 (.SkipRequest "c")) :=
  C1_amended_no_dup_preserved c1WitnessEnv c1Room4 (.SkipRequest "c") (by decide) rfl
    (fun sv vid => rfl) (fun vs => List.nodup_nil)

/-- C2: the spec claims isPlaying holds iff playbackStart is set after
every operation.  Evaluating dequeueNext on a playing room whose queue is
empty stops playback (isPlaying becomes false) but leaves playbackStart
set, violating the invariant; pause clears playbackStart, so the omission
in dequeueNext's stop branch is a slip in the code. -/
theorem C2_dequeueNext_playbackStart_bug :
    (Room.dequeueNext c2Room).isPlaying = false ∧
    (Room.dequeueNext c2Room).playbackStart = some 10 ∧
    (Room.dequeueNext c2Room).playbackStart ≠ Option.none := by
  refine ⟨rfl, rfl, by decide⟩

/-- C3: the spec claims sync writes the full snapshot to the bus key
prefixed room-sync:, but the source writes it to the key prefixed room:
(the channel name), which the client manager never reads for snapshots; the
delta carries exactly the dirty field names with the Owner grants mask, the
dirty set is cleared, and a clean room publishes nothing. -/
theorem C3_sync_key_bug :
    Room.sync c3Room =
      ({ c3Room with dirty := [] },
       [Room.Effect.setKey "room:foo" (Room.mkSnapshot c3Room),
        Room.Effect.publish "room:foo"
          (Room.ServerMsg.sync ["title"] (Room.mkSnapshot c3Room) (gAllow.getMask .Owner))]) ∧
    "room:foo" ≠ "room-sync:foo" ∧
    Room.sync (mkRoom "foo" gAllow) = (mkRoom "foo" gAllow, []) := by
  refine ⟨rfl, by decide, rfl⟩

/-- C4: a single-video AddRequest whose (service,id) matches currentSource
or a queue entry fails with VideoAlreadyQueued before any mutation;
otherwise the fetched video is appended to the end of the queue, the queue
is marked dirty, and the add event is published. -/
theorem C4_addToQueue_single (env : Room.Env) (s : RoomState) (client : String) (v : Video) :
    Room.addToQueue env s client (some v) Option.none Option.none =
      (if Room.matchesCurrent s v || s.queue.any (fun item => matchVideo item v) then
        .error .videoAlreadyQueued
      else
        .ok (Room.markDirty "queue" { s with queue := s.queue ++ [env.fetch v.service v.id] },
             [Room.publishRoomEvent { s with queue := s.queue ++ [env.fetch v.service v.id] }
               (.AddRequest client (some v) Option.none Option.none)
               (some { video := some (env.fetch v.service v.id) })])) := by
  unfold Room.addToQueue
  by_cases h1 : Room.matchesCurrent s v <;>
    by_cases h2 : s.queue.any (fun item => matchVideo item v) <;>
      simp [Room.resolveVideo, h1, h2]

/-- C5 counterexample: the claim says skip followed by an undo carrying the
skip's event restores currentSource and playbackPosition to their pre-skip
values exactly.  While playing, the skip captures the effective position
(stored position plus elapsed wallclock), and the undo restores that value:
here the pre-skip stored position is 10, the clock has run 5 seconds, and
the undone room sits at position 15, not 10.  currentSource and the queue
are restored exactly. -/
theorem C5_counterexample :
    (Room.skip c5Env c5Room "c").2 =
      [Room.publishRoomEvent c5AfterSkip (.SkipRequest "c") (some c5Ctx)] ∧
    isOkB (Room.processRequest c5Env c5AfterSkip
      (.UndoRequest "c" (.SkipRequest "c") c5Ctx)) = true ∧
    c5AfterUndo.currentSource = c5Room.currentSource ∧
    c5AfterUndo.queue = c5Room.queue ∧
    c5AfterUndo.playbackPosition = Room.realPlaybackPosition c5Room 5 ∧
    Room.realPlaybackPosition c5Room 5 = 15 ∧
    c5Room.playbackPosition = 10 ∧ (15 : Rat) ≠ 10 := by
  refine ⟨rfl, by decide, by decide, by decide, rfl, ?_, rfl, by norm_num⟩
  norm_num [Room.realPlaybackPosition, c5Room, mkRoom]

/-- C5 (amended): for any room with a current video, a skip followed by an
undo carrying the skip's event payload restores currentSource and the
queue exactly, and sets playbackPosition to the effective position the
skip captured; that equals the pre-skip stored playbackPosition exactly
when the room was not playing (playbackStart none). -/
theorem C5_amended_skip_undo_restores (env : Room.Env) (s : RoomState) (client : String)
    (v : Video) (h : s.currentSource = some v) :
    c5Restores s (Room.realPlaybackPosition s env.now)
      (Room.processRequest env (Room.skip env s client).1
        (.UndoRequest client (.SkipRequest client)
          { video := s.currentSource
            prevPosition := some (Room.realPlaybackPosition s env.now)
            queueIdx := Option.none })) ∧
    (s.playbackStart = Option.none →
      Room.realPlaybackPosition s env.now = s.playbackPosition) := by
  constructor
  · rw [processRequest_eq]
    unfold Room.dispatchStep Room.gateCheck
    simp only [RoomRequest.rtype, Room.permissionFor, RoomRequest.client]
    unfold Room.skip Room.dequeueNext
    cases hq : s.queue with
    | nil =>
      cases hp : s.isPlaying <;>
        simp [h, hq, hp, Room.setCurrentSource, Room.setPlaybackPosition, Room.setIsPlaying,
          Room.markDirty, c5Restores]
    | cons v1 rest =>
      simp [h, hq, Room.setCurrentSource, Room.setPlaybackPosition, Room.markDirty, c5Restores]
  · intro hps
    simp [Room.realPlaybackPosition, hps]

/-- C5 witness: the amended theorem applied to a concrete paused room. -/
theorem C5_amended_witness :
    c5Restores c5WRoom (Room.realPlaybackPosition c5WRoom envTest.now)
      (Room.processRequest envTest (Room.skip envTest c5WRoom "c").1
        (.UndoRequest "c" (.SkipRequest "c")
          { video := c5WRoom.currentSource
            prevPosition := some (Room.realPlaybackPosition c5WRoom envTest.now)
            queueIdx := Option.none })) :=
  (C5_amended_skip_undo_restores envTest c5WRoom "c" vidA rfl).1

/-- C6: processRequest performs the generic grants check exactly for the
eight request types in the spec's permission map (with the spec's
permission names, proved by comparison with a table written from the
spec's words), a failing check aborts the request with PermissionDenied
before any handler runs, and Join, Leave, UpdateUser, Promote and Undo
requests carry no generic permission. -/
theorem C6_permission_map :
    (∀ t, Room.permissionFor t = specPermissionFor t) ∧
    (∀ (env : Room.Env) (s : RoomState) (req : RoomRequest) (perm : String) (u : RoomUser),
      Room.permissionFor req.rtype = some perm →
      Room.getUser s req.client = some u →
      s.grants.checkB (Room.getRole s u) perm = false →
      Room.processRequest env s req = .error .permissionDenied) ∧
    (∀ t, Room.permissionFor t = Option.none ↔
      t ∈ [RoomRequestType.JoinRequest, .LeaveRequest, .UpdateUser, .PromoteRequest,
           .UndoRequest]) := by
  refine ⟨?_, ?_, ?_⟩
  · intro t; cases t <;> rfl
  · intro env s req perm u h1 h2 h3
    show Room.dispatchStep env (Room.processRequestFuel env 1) s req = .error .permissionDenied
    unfold Room.dispatchStep Room.gateCheck
    simp only [h1, h2, h3]
    simp
  · intro t; cases t <;> simp [Room.permissionFor]

/-- C6 witness: in a deny-everything room, a playback request from the
member client aborts with PermissionDenied. -/
theorem C6_permission_map_witness :
    Room.processRequest envTest c6Room (.PlaybackRequest "c" true) =
      .error .permissionDenied :=
  C6_permission_map.2.1 envTest c6Room (.PlaybackRequest "c" true)
    "playback.play-pause" (mkRoomUser "c") rfl rfl (by decide)

/-- C7: the claim says a first add-vote for a video stores the voting
client as a single clientId element.  The source builds the new set as
new Set(request.client), which iterates the client-id string into its
characters: client "10" is stored as the two elements "1" and "0", not as
"10" (while the existing-set path inserts the whole id), contradicting the
code's own intent; voteCounts is marked dirty. -/
theorem C7_vote_charset_bug :
    mapLookup (Room.vote c7Room "10" vidA true).votes "youtubeA" = some ["1", "0"] ∧
    (["1", "0"] : List String) ≠ ["10"] ∧
    "voteCounts" ∈ (Room.vote c7Room "10" vidA true).dirty := by
  refine ⟨rfl, by decide, by decide⟩

/-- C8 counterexample: the claim says updateInfo with a userId clears the
stored unregistered name.  It does not: the user_id branch records the id
and caches the fetched user but leaves unregisteredUsername untouched
("bob" remains stored). -/
theorem C8_counterexample :
    (RoomUser.updateInfo c8GetU c8User c8Info).unregisteredUsername = "bob" ∧
    "bob" ≠ "" := ⟨rfl, by decide⟩

/-- C8 (amended): updateInfo with a truthy userId records the id and caches
the user fetched from the collaborator; unregisteredUsername is left
unchanged, but the username getter returns the cached account name while
logged in, so the stale unregistered name is shadowed rather than
cleared. -/
theorem C8_amended_updateInfo (getU : Nat → User) (u : RoomUser) (info : ClientInfo)
    (uid : Nat) (h1 : info.user_id = some uid) (h2 : uid ≠ 0) :
    (u.updateInfo getU info).user_id = some uid ∧
    (u.updateInfo getU info).user = some (getU uid) ∧
    (u.updateInfo getU info).unregisteredUsername = u.unregisteredUsername ∧
    (u.updateInfo getU info).username = (getU uid).username := by
  unfold RoomUser.updateInfo
  rw [h1]
  have ht : truthyNat (some uid) = true := by simp [truthyNat, h2]
  rw [ht]
  cases info.status <;>
    simp [RoomUser.username, RoomUser.isLoggedIn, truthyNat, h2]

/-- C8 witness: the amended theorem applied to the concrete participant. -/
theorem C8_amended_witness :
    (RoomUser.updateInfo c8GetU c8User c8Info).user_id = some 1 ∧
    (RoomUser.updateInfo c8GetU c8User c8Info).user = some (c8GetU 1) ∧
    (RoomUser.updateInfo c8GetU c8User c8Info).unregisteredUsername =
      c8User.unregisteredUsername ∧
    (RoomUser.updateInfo c8GetU c8User c8Info).username = (c8GetU 1).username :=
  C8_amended_updateInfo c8GetU c8User c8Info 1 rfl (by decide)

/-- C9 counterexample: the claim says undoing an AddRequest re-enters
processRequest and is subject to the manage-queue.remove permission check.
With an empty queue it is not: in a deny-everything room, the undo clears
currentSource directly, succeeds, publishes nothing, and changes state
without any PermissionDenied. -/
theorem C9_counterexample :
    Room.processRequest envTest c9Room
      (.UndoRequest "c" (.AddRequest "c" (some vidB) Option.none Option.none) { }) =
      .ok (Room.setCurrentSource c9Room Option.none, []) ∧
    (Room.setCurrentSource c9Room Option.none).currentSource ≠ c9Room.currentSource := by
  refine ⟨rfl, by decide⟩

/-- C9 (amended): undoing a SeekRequest always re-enters processRequest
with a fresh SeekRequest attributed to the undoing client, and undoing an
AddRequest does so with a RemoveRequest when the queue is non-empty; in
both cases the re-entry is subject to the playback.seek or
manage-queue.remove permission check and aborts with PermissionDenied
(leaving state unchanged) when the check denies.  When the queue is empty,
undoing an AddRequest bypasses the check (see the counterexample). -/
theorem C9_amended_undo_permission :
    (∀ (env : Room.Env) (s : RoomState) (client ec : String) (val : Option Rat)
       (ctx : EventContext) (u : RoomUser),
      Room.getUser s client = some u →
      s.grants.checkB (Room.getRole s u) "playback.seek" = false →
      Room.processRequest env s (.UndoRequest client (.SeekRequest ec val) ctx) =
        .error .permissionDenied) ∧
    (∀ (env : Room.Env) (s : RoomState) (client ec : String) (video : Option Video)
       (videos : Option (List Video)) (url : Option String) (ctx : EventContext) (u : RoomUser),
      s.queue ≠ [] →
      Room.getUser s client = some u →
      s.grants.checkB (Room.getRole s u) "manage-queue.remove" = false →
      Room.processRequest env s (.UndoRequest client (.AddRequest ec video videos url) ctx) =
        .error .permissionDenied) := by
  constructor
  · intro env s client ec val ctx u h1 h2
    rw [processRequest_eq]
    unfold Room.dispatchStep Room.gateCheck
    simp only [RoomRequest.rtype, Room.permissionFor, RoomRequest.client,
      processRequestFuel_one, h1, h2]
    simp [Room.dispatchStep, Room.gateCheck, RoomRequest.rtype, Room.permissionFor,
      RoomRequest.client, h1, h2]
  · intro env s client ec video videos url ctx u hq h1 h2
    rw [processRequest_eq]
    unfold Room.dispatchStep Room.gateCheck
    have hlen : s.queue.length > 0 := List.length_pos.mpr hq
    simp only [RoomRequest.rtype, Room.permissionFor, RoomRequest.client,
      processRequestFuel_one, hlen, if_true, h1, h2]
    simp [Room.dispatchStep, Room.gateCheck, RoomRequest.rtype, Room.permissionFor,
      RoomRequest.client, h1, h2]

/-- C9 witness: in a deny-everything room with a queued video, undoing a
seek and undoing an add both abort with PermissionDenied. -/
theorem C9_amended_witness :
    Room.processRequest envTest c9WRoom
      (.UndoRequest "c" (.SeekRequest "x" (some 3)) { prevPosition := some 1 }) =
      .error .permissionDenied ∧
    Room.processRequest envTest c9WRoom
      (.UndoRequest "c" (.AddRequest "x" (some vidA) Option.none Option.none) { }) =
      .error .permissionDenied :=
  ⟨C9_amended_undo_permission.1 envTest c9WRoom "c" "x" (some 3)
      { prevPosition := some 1 } (mkRoomUser "c") rfl (by decide),
   C9_amended_undo_permission.2 envTest c9WRoom "c" "x" (some vidA) Option.none Option.none
      { } (mkRoomUser "c") (by decide) rfl (by decide)⟩

/-- C10: a LeaveRequest whose client id matches no current participant
leaves the whole room state (realusers and the dirty set included)
unchanged, and still publishes exactly one event message for the
request. -/
theorem C10_leaveRoom_unknown_client (s : RoomState) (client : String)
    (h : ∀ u ∈ s.realusers, u.id ≠ client) :
    Room.leaveRoom s client =
      (s, [Room.Effect.publish ("room:" ++ s.name)
            (Room.ServerMsg.event (.LeaveRequest client) (Room.getUserInfo s client)
              Option.none)]) := by
  unfold Room.leaveRoom
  have hfind : s.realusers.findIdx? (fun u => u.id == client) = Option.none := by
    rw [List.findIdx?_eq_none_iff]
    intro u hu
    simpa using h u hu
  rw [hfind]
  rfl

/-- C10 witness: the theorem applied to a room whose only member is client
"a" and a leave request from the unknown client "b". -/
theorem C10_witness :
    Room.leaveRoom c10Room "b" =
      (c10Room, [Room.Effect.publish "room:r"
        (Room.ServerMsg.event (.LeaveRequest "b") (Room.getUserInfo c10Room "b")
          Option.none)]) :=
  C10_leaveRoom_unknown_client c10Room "b" (by decide)
